import Mathlib

/-!
Verification of the patch location and batch-application engine of the
Code-Reviewer extension, as implemented in `src/autofix.js`.  The relevant
functions (`applyAllFixes`, `applySingleFix`, and the proposal-defaulting map
inside `analyzeAndGetFixes`) are embedded shallowly below: documents are
strings, character offsets are naturals, the host edit primitive
(`editor.edit`) is an oracle returning success or failure, and the per-fix
loop becomes a left fold over an explicit batch state.
-/

namespace CodeReviewer

/-- The `SuggestedFix` class of src/autofix.js lines 25–36.  `originalCode`
is the anchor text the fix claims to replace, `fixedCode` the replacement,
`lineStart`/`lineEnd` the advisory 1-indexed line range.  Line numbers come
from untrusted JSON and are modelled as `Int`. -/
structure SuggestedFix where
  id : String
  description : String
  originalCode : String
  fixedCode : String
  lineStart : Int
  lineEnd : Int
  severity : String
  type : String
deriving DecidableEq

/-- Helper for `jsIndexOf`: scan the remaining text left to right, returning
the first offset (counted from `i`) where `pat` occurs. -/
def indexOfAux (pat : List Char) : List Char → Nat → Option Nat
  | [], i => if pat = [] then some i else none
  | c :: rest, i =>
    if pat.isPrefixOf (c :: rest) then some i else indexOfAux pat rest (i + 1)

/-- JS `doc.indexOf(pat)` as used in src/autofix.js:286: offset of the first
occurrence of `pat` in `doc`, `none` standing for JS's `-1`.  As in JS, the
empty pattern is found at offset 0 of any document. -/
def jsIndexOf (doc pat : String) : Option Nat :=
  indexOfAux pat.data doc.data 0

/-- Replace the half-open character range `[s, e)` of `doc` by `repl`: the
engine's view of the host's `editBuilder.replace(range, text)`. -/
def replaceRange (doc : String) (s e : Nat) (repl : String) : String :=
  String.mk (doc.data.take s ++ repl.data ++ doc.data.drop e)

/-- One entry of the `modifiedRanges` array of `applyAllFixes`
(src/autofix.js:279).  The source field `end` is a Lean keyword, hence
`stop`. -/
structure ModRange where
  start : Nat
  stop : Nat
deriving DecidableEq

/-- The overlap test of src/autofix.js:302–304, clause for clause:
`(startOffset >= range.start && startOffset < range.end) ||
 (endOffset > range.start && endOffset <= range.end) ||
 (startOffset <= range.start && endOffset >= range.end)`. -/
def overlapsRange (s e : Nat) (r : ModRange) : Bool :=
  (decide (r.start ≤ s) && decide (s < r.stop)) ||
  (decide (r.start < e) && decide (e ≤ r.stop)) ||
  (decide (s ≤ r.start) && decide (r.stop ≤ e))

/-- The `for (const range of modifiedRanges)` loop of src/autofix.js:301–308. -/
def overlapsAny (s e : Nat) (ranges : List ModRange) : Bool :=
  ranges.any (overlapsRange s e)

/-- The loop state of `applyAllFixes` (src/autofix.js:274–333): current
document text, the three counters `appliedCount`, `failedCount`,
`skippedCount`, and the committed `modifiedRanges`. -/
structure BatchState where
  doc : String
  applied : Nat
  failed : Nat
  skipped : Nat
  modifiedRanges : List ModRange
deriving DecidableEq

/-- Fresh state at the start of a batch: zeroed counters, no committed
ranges (src/autofix.js:274–279). -/
def BatchState.init (doc : String) : BatchState :=
  ⟨doc, 0, 0, 0, []⟩

/-- One iteration of the `for (const fix of sortedFixes)` loop of
`applyAllFixes` (src/autofix.js:282–333).  `host` models the external
`editor.edit` primitive accepting or rejecting a requested write; an
exception raised while processing is absorbed by the `catch` block into the
failed counter, the same outcome as a rejected write, so it is folded into
`host` returning `false`. -/
def stepFix (host : SuggestedFix → Bool) (s : BatchState)
    (fix : SuggestedFix) : BatchState :=
  match jsIndexOf s.doc fix.originalCode with
  | none => { s with failed := s.failed + 1 }
  | some idx =>
    let startOffset := idx
    let endOffset := idx + fix.originalCode.length
    if overlapsAny startOffset endOffset s.modifiedRanges then
      { s with skipped := s.skipped + 1 }
    else if host fix then
      { s with
        doc := replaceRange s.doc startOffset endOffset fix.fixedCode
        applied := s.applied + 1
        modifiedRanges := s.modifiedRanges ++ [⟨startOffset, endOffset⟩] }
    else
      { s with failed := s.failed + 1 }

/-- The whole per-fix loop of src/autofix.js:282–333 as a left fold. -/
def processFixes (host : SuggestedFix → Bool) (fixes : List SuggestedFix)
    (s : BatchState) : BatchState :=
  fixes.foldl (stepFix host) s

/-- The comparator `(a, b) => b.lineStart - a.lineStart` of
src/autofix.js:272 as a relation: `a` sorts no later than `b` iff
`b.lineStart ≤ a.lineStart`. -/
def fixOrder (a b : SuggestedFix) : Prop :=
  b.lineStart ≤ a.lineStart

instance : DecidableRel fixOrder := fun a b =>
  inferInstanceAs (Decidable (b.lineStart ≤ a.lineStart))

instance : IsTotal SuggestedFix fixOrder :=
  ⟨fun a b => Int.le_total b.lineStart a.lineStart⟩

instance : IsTrans SuggestedFix fixOrder :=
  ⟨fun _ _ _ hab hbc => le_trans hbc hab⟩

/-- `[...fixes].sort((a, b) => b.lineStart - a.lineStart)`
(src/autofix.js:272): a stable sort by descending `lineStart`; insertion
sort is stable, matching the JS engine's stable `Array.prototype.sort`. -/
def sortFixes (fixes : List SuggestedFix) : List SuggestedFix :=
  List.insertionSort fixOrder fixes

/-- `applyAllFixes` (src/autofix.js:255–344) after the user confirms
"Yes, Apply All": sort by descending `lineStart`, then run the per-fix loop
from a fresh batch state. -/
def applyAllFixes (host : SuggestedFix → Bool) (doc : String)
    (fixes : List SuggestedFix) : BatchState :=
  processFixes host (sortFixes fixes) (BatchState.init doc)

/-- Sum of the three outcome counters of a batch state. -/
def countSum (s : BatchState) : Nat :=
  s.applied + s.failed + s.skipped

/-- Two half-open spans `[s1, e1)` and `[s2, e2)` intersect: they share at
least one character offset. -/
def spansIntersect (s1 e1 s2 e2 : Nat) : Bool :=
  decide (max s1 s2 < min e1 e2)

/-- The line-fallback start position of `applySingleFix`
(src/autofix.js:211): `new vscode.Position(Math.max(0, fix.lineStart - 1), 0)`. -/
def fallbackStartLine (fix : SuggestedFix) : Int :=
  max 0 (fix.lineStart - 1)

/-- The line-fallback end position of `applySingleFix`
(src/autofix.js:212): `new vscode.Position(fix.lineEnd, 0)` — the line
number is passed through unmodified. -/
def fallbackEndLine (fix : SuggestedFix) : Int :=
  fix.lineEnd

/-- `document.lineCount`: number of lines of a document, i.e. newline count
plus one; the valid 0-indexed position lines are `0 … lineCount - 1`. -/
def lineCount (doc : String) : Nat :=
  doc.data.count '\n' + 1

/-- A JSON-ish field value as delivered by the generation service. -/
inductive JsVal where
  | str (s : String)
  | num (n : Int)
  | boolean (b : Bool)
  | null
deriving DecidableEq

/-- JS truthiness of a field value (`''`, `0`, `false`, `null` are falsy). -/
def truthy : JsVal → Bool
  | .str s => decide (s ≠ "")
  | .num n => decide (n ≠ 0)
  | .boolean b => b
  | .null => false

/-- `v || d` on an untrusted field: an absent field is `undefined`, which is
falsy; a falsy present value is likewise replaced by the default, while any
truthy value — whatever its shape — is kept. -/
def jsOr (v : Option JsVal) (d : JsVal) : JsVal :=
  match v with
  | none => d
  | some w => if truthy w then w else d

/-- One raw entry of `parsed.fixes` in `analyzeAndGetFixes` before
defaulting: every field may be absent or of any JSON shape. -/
structure RawFix where
  id : Option JsVal
  description : Option JsVal
  originalCode : Option JsVal
  fixedCode : Option JsVal
  lineStart : Option JsVal
  lineEnd : Option JsVal
  severity : Option JsVal
  type : Option JsVal
deriving DecidableEq

/-- The shape of a `SuggestedFix` as actually produced by the defaulting of
src/autofix.js:114–125: fields keep whatever truthy JSON value the service
sent, so no field is guaranteed to be a string or a number. -/
structure RawSuggestedFix where
  id : JsVal
  description : JsVal
  originalCode : JsVal
  fixedCode : JsVal
  lineStart : JsVal
  lineEnd : JsVal
  severity : JsVal
  type : JsVal
deriving DecidableEq

/-- The body of `(parsed.fixes || []).map((fix, index) => new SuggestedFix(...))`
in `analyzeAndGetFixes` (src/autofix.js:114–125), field by field. -/
def mkSuggestedFix (fix : RawFix) (index : Nat) : RawSuggestedFix :=
  { id := jsOr fix.id (.str ("fix_" ++ toString index))
    description := jsOr fix.description (.str "No description")
    originalCode := jsOr fix.originalCode (.str "")
    fixedCode := jsOr fix.fixedCode (.str "")
    lineStart := jsOr fix.lineStart (.num 1)
    lineEnd := jsOr fix.lineEnd (.num 1)
    severity := jsOr fix.severity (.str "info")
    type := jsOr fix.type (.str "style") }

theorem processFixes_nil (host : SuggestedFix → Bool) (s : BatchState) :
    processFixes host [] s = s := rfl

theorem processFixes_cons (host : SuggestedFix → Bool) (f : SuggestedFix)
    (t : List SuggestedFix) (s : BatchState) :
    processFixes host (f :: t) s = processFixes host t (stepFix host s f) := rfl

theorem processFixes_append (host : SuggestedFix → Bool)
    (l1 l2 : List SuggestedFix) (s : BatchState) :
    processFixes host (l1 ++ l2) s
      = processFixes host l2 (processFixes host l1 s) := by
  simp [processFixes, List.foldl_append]

theorem countSum_stepFix (host : SuggestedFix → Bool) (s : BatchState)
    (f : SuggestedFix) : countSum (stepFix host s f) = countSum s + 1 := by
  unfold stepFix
  cases jsIndexOf s.doc f.originalCode with
  | none => simp [countSum]; omega
  | some idx =>
    dsimp only
    split
    · simp [countSum]; omega
    · split
      · simp [countSum]; omega
      · simp [countSum]; omega

theorem countSum_processFixes (host : SuggestedFix → Bool)
    (l : List SuggestedFix) (s : BatchState) :
    countSum (processFixes host l s) = countSum s + l.length := by
  induction l generalizing s with
  | nil => rfl
  | cons f t ih =>
    rw [processFixes_cons, ih, countSum_stepFix]
    simp [List.length_cons]
    omega

theorem processFixes_allAbsent (host : SuggestedFix → Bool)
    (l : List SuggestedFix) (s : BatchState)
    (h : ∀ f ∈ l, jsIndexOf s.doc f.originalCode = none) :
    processFixes host l s = { s with failed := s.failed + l.length } := by
  induction l generalizing s with
  | nil => simp [processFixes_nil]
  | cons f t ih =>
    have hf : jsIndexOf s.doc f.originalCode = none := h f (List.mem_cons_self f t)
    have hstep : stepFix host s f = { s with failed := s.failed + 1 } := by
      unfold stepFix
      rw [hf]
    rw [processFixes_cons, hstep,
      ih { s with failed := s.failed + 1 }
        (fun g hg => by simpa using h g (List.mem_cons_of_mem f hg))]
    congr 1
    show s.failed + 1 + t.length = s.failed + (f :: t).length
    rw [List.length_cons]
    omega

/-- Claim C2: running the batch applier on the document
`"let x = eval(input);\nconsole.log(x);"` with the single proposal whose
anchor is `"eval(input)"`, replacement `"JSON.parse(input)"`, lines 1–1,
produces `applied = 1` and leaves the document equal to
`"let x = JSON.parse(input);\nconsole.log(x);"`. -/
theorem applyAllFixes_evalScenario :
    applyAllFixes (fun _ => true) "let x = eval(input);\nconsole.log(x);"
        [⟨"f1", "d", "eval(input)", "JSON.parse(input)", 1, 1, "info", "style"⟩]
      = ⟨"let x = JSON.parse(input);\nconsole.log(x);", 1, 0, 0, [⟨8, 19⟩]⟩ := by
  decide

/-- Claim C6: before the per-proposal loop starts, `applyAllFixes` sorts the
proposal set by descending advisory `lineStart` (relation `fixOrder`) and
then processes exactly that sorted sequence — a permutation of the input —
so edits are attempted from the bottom of the document upward. -/
theorem applyAllFixes_sortedDescending (host : SuggestedFix → Bool)
    (doc : String) (fixes : List SuggestedFix) :
    applyAllFixes host doc fixes
        = processFixes host (sortFixes fixes) (BatchState.init doc) ∧
      List.Sorted fixOrder (sortFixes fixes) ∧
      List.Perm (sortFixes fixes) fixes :=
  ⟨rfl, List.sorted_insertionSort fixOrder fixes,
    List.perm_insertionSort fixOrder fixes⟩

/-- Claim C10: every proposal in a batch contributes to exactly one of the
three counters, so at termination of `applyAllFixes`
`applied + failed + skipped` equals the number of proposals in the batch. -/
theorem applyAllFixes_counts_partition (host : SuggestedFix → Bool)
    (doc : String) (fixes : List SuggestedFix) :
    (applyAllFixes host doc fixes).applied
        + (applyAllFixes host doc fixes).failed
        + (applyAllFixes host doc fixes).skipped = fixes.length := by
  have h := countSum_processFixes host (sortFixes fixes) (BatchState.init doc)
  have hlen : (sortFixes fixes).length = fixes.length :=
    (List.perm_insertionSort fixOrder fixes).length_eq
  simpa [applyAllFixes, countSum, BatchState.init, hlen] using h

/-- Claim C7: the per-proposal loop never aborts early — even when the host
edit for proposal `p` fails (`host p = false`, which also models an
exception absorbed by the loop's catch block), the remaining proposals `l2`
are still processed after it, and every proposal of the batch, before or
after the failure, is recorded in exactly one of the counters. -/
theorem applyAllFixes_nonAborting (host : SuggestedFix → Bool)
    (s : BatchState) (l1 l2 : List SuggestedFix) (p : SuggestedFix)
    (_hfail : host p = false) :
    processFixes host (l1 ++ p :: l2) s
        = processFixes host l2 (stepFix host (processFixes host l1 s) p) ∧
      countSum (processFixes host (l1 ++ p :: l2) s)
        = countSum s + l1.length + 1 + l2.length := by
  constructor
  · rw [processFixes_append, processFixes_cons]
  · rw [countSum_processFixes]
    simp [List.length_append]
    omega

/-- Witness for `applyAllFixes_nonAborting` at a concrete batch: a host that
rejects every write fails the first proposal, and the second is still
processed and counted. -/
theorem applyAllFixes_nonAborting_witness :
    processFixes (fun _ => false)
        (([] : List SuggestedFix)
            ++ (⟨"f1", "d", "abc", "X", 2, 2, "error", "bug"⟩ : SuggestedFix)
              :: [⟨"f2", "d", "bc", "Y", 1, 1, "info", "style"⟩])
        (BatchState.init "abc")
      = processFixes (fun _ => false)
          [⟨"f2", "d", "bc", "Y", 1, 1, "info", "style"⟩]
          (stepFix (fun _ => false)
            (processFixes (fun _ => false) ([] : List SuggestedFix)
              (BatchState.init "abc"))
            ⟨"f1", "d", "abc", "X", 2, 2, "error", "bug"⟩) ∧
    countSum (processFixes (fun _ => false)
        (([] : List SuggestedFix)
            ++ (⟨"f1", "d", "abc", "X", 2, 2, "error", "bug"⟩ : SuggestedFix)
              :: [⟨"f2", "d", "bc", "Y", 1, 1, "info", "style"⟩])
        (BatchState.init "abc"))
      = countSum (BatchState.init "abc")
          + List.length ([] : List SuggestedFix) + 1
          + List.length [(⟨"f2", "d", "bc", "Y", 1, 1, "info", "style"⟩ : SuggestedFix)] :=
  applyAllFixes_nonAborting (fun _ => false) (BatchState.init "abc") []
    [⟨"f2", "d", "bc", "Y", 1, 1, "info", "style"⟩]
    ⟨"f1", "d", "abc", "X", 2, 2, "error", "bug"⟩ rfl

/-- Claim C1 (code bug): on the pre-batch document `"abc abc"` the two
proposals anchored at `"abc"` and `"ab"` both resolve at offset 0, with
intersecting spans `[0, 3)` and `[0, 2)` — yet one `applyAllFixes` call
applies both.  The first edit destroys the first occurrence, so the second
proposal is re-resolved to a later occurrence whose offsets pass the overlap
test against the recorded range. -/
theorem applyAllFixes_overlapLaw_failing :
    jsIndexOf "abc abc" "abc" = some 0 ∧
    jsIndexOf "abc abc" "ab" = some 0 ∧
    spansIntersect 0 (0 + 3) 0 (0 + 2) = true ∧
    applyAllFixes (fun _ => true) "abc abc"
        [⟨"f1", "d", "abc", "xyz", 2, 2, "info", "style"⟩,
         ⟨"f2", "d", "ab", "AB", 1, 1, "info", "style"⟩]
      = ⟨"xyz ABc", 2, 0, 0, [⟨0, 3⟩, ⟨4, 6⟩]⟩ := by
  decide

/-- Claim C3 is refuted here: with a host that accepts every write, a batch
whose single proposal's anchor `"zzz"` is absent from `"abc"` ends with
`failed = 1` — the absent anchor is counted in the `failed` counter even
though no host edit was ever rejected, and the batch result carries no
separate `notFound` counter at all. -/
theorem batchResult_noSeparateNotFound :
    applyAllFixes (fun _ => true) "abc"
        [⟨"f1", "d", "zzz", "Y", 1, 1, "info", "style"⟩]
      = ⟨"abc", 0, 1, 0, []⟩ := by
  decide

/-- Claim C3 as amended: a proposal whose anchor text is absent from the
current document at its processing step increments the `failed` counter —
the same counter that records rejected host edits — leaving the document
and the other counters untouched; the batch result distinguishes only the
three counts `applied`, `failed` and `skipped`. -/
theorem stepFix_absentAnchor_failed (host : SuggestedFix → Bool)
    (s : BatchState) (f : SuggestedFix)
    (h : jsIndexOf s.doc f.originalCode = none) :
    stepFix host s f = { s with failed := s.failed + 1 } := by
  unfold stepFix
  rw [h]

/-- Witness for `stepFix_absentAnchor_failed`: anchor `"zzz"` is absent from
the document `"abc"`. -/
theorem stepFix_absentAnchor_failed_witness :
    stepFix (fun _ => true) (BatchState.init "abc")
        ⟨"f1", "d", "zzz", "Y", 1, 1, "info", "style"⟩
      = { BatchState.init "abc" with
          failed := (BatchState.init "abc").failed + 1 } :=
  stepFix_absentAnchor_failed (fun _ => true) (BatchState.init "abc")
    ⟨"f1", "d", "zzz", "Y", 1, 1, "info", "style"⟩ (by decide)

/-- Claim C4 (code bug): in batch mode a proposal with empty `anchorText` is
not reported as not-found and the document does not stay unchanged — JS
`indexOf("")` yields 0, so the replacement is inserted at offset 0 of the
document and counted as applied. -/
theorem applyAllFixes_emptyAnchor_inserts :
    applyAllFixes (fun _ => true) "a\nb\nc"
        [⟨"f1", "d", "", "XX", 2, 2, "info", "style"⟩]
      = ⟨"XXa\nb\nc", 1, 0, 0, [⟨0, 0⟩]⟩ := by
  decide

/-- Claim C5 is refuted here: the anchor `"abc"` occurs twice in
`"abc abc"`, so after the first batch applies its proposal (yielding
`"def abc"`), re-running the same batch against the resulting document finds
the surviving occurrence and applies the proposal a second time (yielding
`"def def"`) instead of reporting it as not found. -/
theorem applyAllFixes_reapplies :
    applyAllFixes (fun _ => true) "abc abc"
        [⟨"f1", "d", "abc", "def", 1, 1, "info", "style"⟩]
      = ⟨"def abc", 1, 0, 0, [⟨0, 3⟩]⟩ ∧
    applyAllFixes (fun _ => true) "def abc"
        [⟨"f1", "d", "abc", "def", 1, 1, "info", "style"⟩]
      = ⟨"def def", 1, 0, 0, [⟨4, 7⟩]⟩ := by
  decide

/-- Claim C5 as amended: re-running the batch applier against a document
from which every proposal's anchor text is absent (as after a batch whose
anchors occurred exactly once and whose replacements did not reintroduce
them) yields only not-found outcomes, all recorded in the `failed` counter:
nothing is applied a second time and the document is unchanged. -/
theorem applyAllFixes_idempotent_of_absent (host : SuggestedFix → Bool)
    (doc : String) (fixes : List SuggestedFix)
    (h : ∀ f ∈ fixes, jsIndexOf doc f.originalCode = none) :
    applyAllFixes host doc fixes = ⟨doc, 0, fixes.length, 0, []⟩ := by
  have hlen : (sortFixes fixes).length = fixes.length :=
    (List.perm_insertionSort fixOrder fixes).length_eq
  have habs : ∀ f ∈ sortFixes fixes,
      jsIndexOf (BatchState.init doc).doc f.originalCode = none := by
    intro f hf
    exact h f ((List.perm_insertionSort fixOrder fixes).mem_iff.mp hf)
  calc applyAllFixes host doc fixes
      = { BatchState.init doc with
          failed := (BatchState.init doc).failed + (sortFixes fixes).length } :=
        processFixes_allAbsent host (sortFixes fixes) (BatchState.init doc) habs
    _ = ⟨doc, 0, fixes.length, 0, []⟩ := by
        simp [BatchState.init, hlen]

/-- Witness for `applyAllFixes_idempotent_of_absent`: the anchor `"abc"` is
absent from `"def"`, so the batch applies nothing and fails its only
proposal. -/
theorem applyAllFixes_idempotent_of_absent_witness :
    applyAllFixes (fun _ => true) "def"
        [⟨"f1", "d", "abc", "def", 1, 1, "info", "style"⟩]
      = ⟨"def", 0,
          List.length [(⟨"f1", "d", "abc", "def", 1, 1, "info", "style"⟩ : SuggestedFix)],
          0, []⟩ :=
  applyAllFixes_idempotent_of_absent (fun _ => true) "def"
    [⟨"f1", "d", "abc", "def", 1, 1, "info", "style"⟩] (by decide)

/-- Claim C8 is refuted here: on the two-line document `"a\nb"` (valid
0-indexed position lines 0 and 1), the fallback resolution of a proposal
with `lineEnd = 100` produces end line 100, beyond every valid bound — the
upper bound of the line range is not clamped by the resolution. -/
theorem singleFix_fallback_noUpperClamp :
    fallbackEndLine ⟨"f1", "d", "zz", "Y", 1, 100, "info", "style"⟩ = 100 ∧
    lineCount "a\nb" = 2 ∧
    ¬(fallbackEndLine ⟨"f1", "d", "zz", "Y", 1, 100, "info", "style"⟩
        ≤ (lineCount "a\nb" : Int)) := by
  decide

/-- Claim C8 as amended: the line-fallback resolution of `applySingleFix`
clamps only the lower bound — the start line `max 0 (lineStart - 1)` is
never negative, for every proposal — while the end line is the advisory
`lineEnd` passed through unclamped, leaving upper-bound validation to the
host. -/
theorem singleFix_fallback_lowerClampOnly (fix : SuggestedFix) :
    0 ≤ fallbackStartLine fix ∧ fallbackEndLine fix = fix.lineEnd :=
  ⟨le_max_left 0 (fix.lineStart - 1), rfl⟩

/-- Claim C9 is refuted here: a raw proposal with absent `description` and a
truthy wrong-shaped `fixedCode` (the JSON number 42) is mapped to a proposal
whose description is the non-empty string `"No description"` and whose
`fixedCode` is still the number 42 — neither field receives the claimed
empty-string safe default. -/
theorem mkSuggestedFix_wrongShape_kept :
    (mkSuggestedFix ⟨none, none, none, some (.num 42), none, none, none, none⟩ 0).description
        = .str "No description" ∧
    (mkSuggestedFix ⟨none, none, none, some (.num 42), none, none, none, none⟩ 0).fixedCode
        = .num 42 ∧
    JsVal.str "No description" ≠ JsVal.str "" ∧
    JsVal.num 42 ≠ JsVal.str "" := by
  decide

/-- Claim C9 as amended: fields that are absent (or falsy) are replaced by
per-field defaults rather than raised as errors — `fix_<index>` for the id,
`"No description"` for the description, the empty string for the anchor and
replacement texts, 1 for the line numbers, `info` for the severity and
`style` for the category — while a truthy value of any shape is kept
unchanged, so one malformed proposal never aborts the review. -/
theorem mkSuggestedFix_defaults (raw raw2 : RawFix) (index : Nat) (v : JsVal)
    (h1 : raw.id = none) (h2 : raw.description = none)
    (h3 : raw.originalCode = none) (h4 : raw.fixedCode = none)
    (h5 : raw.lineStart = none) (h6 : raw.lineEnd = none)
    (h7 : raw.severity = none) (h8 : raw.type = none)
    (hv : truthy v = true) (hf : raw2.fixedCode = some v) :
    mkSuggestedFix raw index
        = ⟨.str ("fix_" ++ toString index), .str "No description", .str "",
           .str "", .num 1, .num 1, .str "info", .str "style"⟩ ∧
    (mkSuggestedFix raw2 index).fixedCode = v := by
  constructor
  · simp [mkSuggestedFix, h1, h2, h3, h4, h5, h6, h7, h8, jsOr]
  · simp [mkSuggestedFix, hf, jsOr, hv]

/-- Witness for `mkSuggestedFix_defaults` at index 5, with an all-absent raw
proposal and a second raw proposal whose `fixedCode` is the truthy number 7. -/
theorem mkSuggestedFix_defaults_witness :
    mkSuggestedFix ⟨none, none, none, none, none, none, none, none⟩ 5
        = ⟨.str ("fix_" ++ toString 5), .str "No description", .str "",
           .str "", .num 1, .num 1, .str "info", .str "style"⟩ ∧
    (mkSuggestedFix ⟨none, none, none, some (.num 7), none, none, none, none⟩ 5).fixedCode
        = .num 7 :=
  mkSuggestedFix_defaults ⟨none, none, none, none, none, none, none, none⟩
    ⟨none, none, none, some (.num 7), none, none, none, none⟩ 5 (.num 7)
    rfl rfl rfl rfl rfl rfl rfl rfl (by decide) rfl

end CodeReviewer
